import Mathlib

/-!
# Task framework of the remote-host inspection runner

A shallow embedding of `pkg/task/base.go`: the `Machine` descriptor with its
connection lifecycle, the role-driven task selection, the base `Task`, and the
`Executor` that sequences tasks and merges their output.

Conventions of the embedding.

* A Go pointer that may be `nil` is an `Option`; a Go `error` is an `Option String`.
* A Go map is `GoMap`: either the `nil` map or a finite key-addressed store.  Writing to
  the `nil` map is a run-time fault, so code that writes to a map returns `Except Fault`.
* A Go slice is `GoSlice`: either the `nil` slice or a list of elements.
* Calls that leave the translated file (the logger, the ssh client, the methods of an
  `AbstractTask`) are recorded, at the call site, in a `Trace` that is passed through the
  code as explicit state.
-/

namespace Inspect

/-! ## Go values -/

/-- Run-time faults (Go panics) that the translated code can raise. -/
inductive Fault where
  | nilMapWrite
  | nilDereference
  deriving DecidableEq, Repr

/-- Go `error` values: `none` is `nil`, `some msg` an error with message `msg`. -/
abbrev GoError := Option String

/-- The dynamic values stored under `interface{}` in a result-map. -/
inductive Value where
  | null
  | bool (b : Bool)
  | int (n : Int)
  | str (s : String)
  deriving DecidableEq, Repr

/-- A Go `map[string]β`: the `nil` map, or a store with unique keys. -/
inductive GoMap (β : Type) where
  | nil
  | mk (store : AList (fun _ : String => β))

namespace GoMap

variable {β : Type}

/-- The Go expression `make(map[string]β)`: a fresh, empty, non-nil map. -/
def make : GoMap β := .mk ∅

/-- The Go test `m == nil`. -/
def isNil : GoMap β → Bool
  | .nil => true
  | .mk _ => false

/-- The Go lookup `v, exist := m[key]`; reading the `nil` map finds nothing. -/
def lookup : GoMap β → String → Option β
  | .nil, _ => none
  | .mk s, key => s.lookup key

/-- The entries visited by `for key, value := range m`; none for the `nil` map. -/
def items : GoMap β → List (Sigma (fun _ : String => β))
  | .nil => []
  | .mk s => s.entries

/-- The Go assignment `m[key] = value`; it faults on the `nil` map. -/
def store : GoMap β → String → β → Except Fault (GoMap β)
  | .nil, _, _ => .error .nilMapWrite
  | .mk s, key, value => .ok (.mk (s.insert key value))

end GoMap

/-- A Go slice `[]α`: the `nil` slice, or a (possibly empty) list of elements. -/
inductive GoSlice (α : Type) where
  | nil
  | mk (elems : List α)
  deriving DecidableEq, Repr

namespace GoSlice

variable {α : Type}

/-- The elements of a slice, in order; the `nil` slice has none. -/
def toList : GoSlice α → List α
  | .nil => []
  | .mk l => l

/-- The Go test `s == nil`. -/
def isNil : GoSlice α → Bool
  | .nil => true
  | .mk _ => false

/-- The Go expression `append(s, xs...)`.  Appending nothing returns `s` itself, so the
`nil` slice stays `nil`; appending at least one element always gives a non-nil slice. -/
def append : GoSlice α → List α → GoSlice α
  | .nil, [] => .nil
  | .nil, x :: xs => .mk (x :: xs)
  | .mk l, xs => .mk (l ++ xs)

end GoSlice

/-! ## Package `common` and the trace of outgoing calls -/

/-- The string constants of package `common` that `base.go` refers to.  The package is
declared outside the translated file, so their values are parameters. -/
structure Common where
  JumpServer : String
  Redis : String
  MySQL : String
  Critical : String
  NORMAL : String
  SLIGHT : String

/-- A handle on an `*ssh.Client`, the live remote session. -/
structure SshClient where
  id : Nat
  deriving DecidableEq, Repr

/-- The three methods of `*common.Logger` used by `Execute`. -/
inductive LogLevel where
  | Info
  | Error
  | Warning
  deriving DecidableEq, Repr

/-- The four methods of the `AbstractTask` interface. -/
inductive Method where
  | GetName
  | Init
  | Run
  | GetResult
  deriving DecidableEq, Repr

/-- One outgoing call, recorded where it is made.
* `log level format args`: `e.Logger.<level>(format, args...)`; the elapsed-time argument
  of the per-task closing line is wall-clock data and is not recorded.
* `call i method`: `method` invoked on the task at position `i` of `e.Tasks`.
* `mergeResult i`: `e.MergeResult` invoked with what task `i` returned from `GetResult`.
* `down`: `e.Machine.Down()` invoked.
* `close c`: `c.Close()` invoked on the ssh client `c`. -/
inductive Event where
  | log (level : LogLevel) (format : String) (args : List String)
  | call (i : Nat) (method : Method)
  | mergeResult (i : Nat)
  | down
  | close (c : SshClient)
  deriving DecidableEq, Repr

/-- The calls made so far, oldest first. -/
abbrev Trace := List Event

/-! ## Machine -/

/-- The struct `Machine`.  The Go field `Type` is spelled `Typ` here, as `Type` is a
reserved word; `Client` is `none` until a connection is established. -/
structure Machine where
  Name : String
  Typ : String
  Host : String
  Port : String
  Username : String
  Password : String
  Valid : Bool
  Client : Option SshClient
  deriving DecidableEq, Repr

/-- The method `(*Machine).Connect`.  The outcome of `ssh.Dial` is the parameter `dial`:
`none` when dialling failed, `some client` when it succeeded. -/
def Machine.Connect (m : Machine) (dial : Option SshClient) : Machine × Bool :=
  match dial with
  | none => (m, false)
  | some client => ({ m with Client := some client }, true)

/-- The method `(*Machine).Down`: when `m.Client` is not `nil` it calls `m.Client.Close()`
and discards what that returns.  No field of the machine is assigned. -/
def Machine.Down (m : Machine) (tr : Trace) : Machine × Trace :=
  match m.Client with
  | some c => (m, tr ++ [Event.close c])
  | none => (m, tr)

/-- The struct types of the four task variants that `GetTasks` instantiates. -/
inductive TaskVariant where
  | OsInfoTask
  | ServiceTask
  | RedisTask
  | MySQLTask
  deriving DecidableEq, Repr

/-- Modelled from the spec: the declarations of `OsInfoTask`, `ServiceTask`, `RedisTask`
and `MySQLTask` live outside `base.go`.  A task value built by a composite literal is
described by its struct type and by the machine its `Machine` field is set to, `none`
when the literal leaves the field at its zero value. -/
structure ConcreteTask where
  variant : TaskVariant
  Machine : Option Machine
  deriving DecidableEq, Repr

/-- The method `(*Machine).GetTasks`: the baseline task, then at most one task chosen by
the `switch` on `m.Type` (cases are tried in source order). -/
def Machine.GetTasks (c : Common) (m : Machine) : List ConcreteTask :=
  let generalTasks : List ConcreteTask := [⟨.OsInfoTask, some m⟩]
  if m.Typ = c.JumpServer then
    generalTasks ++ [⟨.ServiceTask, some m⟩]
  else if m.Typ = c.Redis then
    generalTasks ++ [⟨.RedisTask, none⟩]
  else if m.Typ = c.MySQL then
    generalTasks ++ [⟨.MySQLTask, none⟩]
  else
    generalTasks

/-! ## Findings, options and the base task -/

/-- The struct `AbnormalMsg`, one finding. -/
structure AbnormalMsg where
  Level : String
  Desc : String
  NodeName : String
  LevelDisplay : String
  deriving DecidableEq, Repr

/-- The struct `Options`, declared outside `base.go`; only its `JMSConfig` map is used. -/
structure Options where
  JMSConfig : GoMap String

/-- The struct `Task`, the base every variant builds on. -/
structure Task where
  result : GoMap Value
  abnormalResult : GoSlice AbnormalMsg
  Machine : Option Machine
  Options : Option Options
  JMSConfig : GoMap String

/-- The zero value of `Task`. -/
def Task.zero : Task :=
  { result := .nil, abnormalResult := .nil, Machine := none, Options := none,
    JMSConfig := .nil }

/-- The method `(*Task).Init`. -/
def Task.Init (t : Task) (opts : Option Inspect.Options) : Task × GoError :=
  ({ t with Options := opts, result := GoMap.make }, none)

/-- The method `(*Task).GetConfig`; dereferencing a `nil` `Options` faults. -/
def Task.GetConfig (t : Task) (key input : String) : Except Fault String :=
  match t.Options with
  | none => .error .nilDereference
  | some o =>
    match o.JMSConfig.lookup key with
    | some v => .ok v
    | none => .ok input

/-- The local `displayMap` of `SetAbnormalEvent`, filled by three assignments in source
order. -/
def displayMap (c : Common) : AList (fun _ : String => String) :=
  (((∅ : AList (fun _ : String => String)).insert c.Critical "严重").insert
    c.NORMAL "一般").insert c.SLIGHT "轻微"

/-- The method `(*Task).SetAbnormalEvent`; `displayMap[level]` is the empty string when
`level` is not a key. -/
def Task.SetAbnormalEvent (c : Common) (t : Task) (desc level : String) : Task :=
  let msg : AbnormalMsg :=
    { Level := level, Desc := desc, NodeName := "",
      LevelDisplay := ((displayMap c).lookup level).getD "" }
  { t with abnormalResult := t.abnormalResult.append [msg] }

/-- The method `(*Task).GetResult`. -/
def Task.GetResult (t : Task) : GoMap Value × GoSlice AbnormalMsg :=
  (t.result, t.abnormalResult)

/-! ## The task interface and the executor -/

/-- The interface `AbstractTask`: an object with private state and four methods.  `Init`
and `Run` may change the state and may return an error; `GetName` and `GetResult` read
it.  The methods act on the task's own state only: what a variant does to the remote
host while it runs is not part of the executor's trace.  Every method returns to its
caller: a method that panics instead of returning has no counterpart here. -/
structure AbstractTask where
  State : Type
  state : State
  Init : Option Options → State → State × GoError
  GetName : State → String
  Run : State → State × GoError
  GetResult : State → GoMap Value × GoSlice AbnormalMsg

/-- Modelled from the spec: the struct `common.Logger` is declared outside `base.go`.  A
logger is a handle on the external logging collaborator that receives the log lines. -/
structure Logger where
  id : Nat
  deriving DecidableEq, Repr

/-- The struct `Executor`.  `Machine` and `Logger` are pointers: each is `none` while the
pointer is `nil`. -/
structure Executor where
  Machine : Option Machine
  Tasks : List AbstractTask
  Result : GoMap Value
  AbnormalResult : GoSlice AbnormalMsg
  Logger : Option Logger

/-- The method `(*Machine).GetExecutor`: the literal `Executor{Machine: m}` with `Tasks`
assigned afterwards; `Logger` is left `nil`.  The method sets of the four task variants
are declared outside `base.go`; `impl` supplies them. -/
def Machine.GetExecutor (c : Common) (impl : ConcreteTask → AbstractTask) (m : Machine) :
    Executor :=
  { Machine := some m, Tasks := (m.GetTasks c).map impl, Result := .nil,
    AbnormalResult := .nil, Logger := none }

/-- A call `e.Logger.<level>(format, args...)`.  Modelled from the spec: the methods of
`common.Logger` are declared outside `base.go`; they write through their receiver, so a
call on the `nil` logger faults. -/
def Executor.log (e : Executor) (level : LogLevel) (format : String) (args : List String)
    (tr : Trace) : Except Fault Trace :=
  match e.Logger with
  | none => .error .nilDereference
  | some _ => .ok (tr ++ [Event.log level format args])

/-- The statement `if err != nil { e.Logger.<level>(format, err) }`. -/
def Executor.logErr (e : Executor) (level : LogLevel) (format : String) (err : GoError)
    (tr : Trace) : Except Fault Trace :=
  match err with
  | some msg => e.log level format [msg] tr
  | none => .ok tr

/-- The loop `for key, value := range result { e.Result[key] = value }` of `MergeResult`,
run over the entries still to be visited. -/
def Executor.mergeLoop (dst : GoMap Value) :
    List (Sigma (fun _ : String => Value)) → Except Fault (GoMap Value)
  | [] => .ok dst
  | kv :: rest =>
    match dst.store kv.1 kv.2 with
    | .error f => .error f
    | .ok d => Executor.mergeLoop d rest

/-- The method `(*Executor).MergeResult`. -/
def Executor.MergeResult (e : Executor) (result : GoMap Value)
    (abnormalResult : GoSlice AbnormalMsg) : Except Fault Executor :=
  match Executor.mergeLoop e.Result result.items with
  | .error f => .error f
  | .ok r =>
    .ok { e with Result := r,
                 AbnormalResult := e.AbnormalResult.append abnormalResult.toList }

/-- The lines logged after a call that returned `err`: one line when `err` is not `nil`. -/
def logIfErr (level : LogLevel) (format : String) (err : GoError) : List Event :=
  match err with
  | some msg => [Event.log level format [msg]]
  | none => []

/-- One iteration of the `for _, t := range e.Tasks` loop of `Execute`, for the task `t`
at position `i`.  It returns the task in its state after `Run`, the executor and the
trace. -/
def Executor.executeBody (e : Executor) (opts : Option Options) (i : Nat) (t : AbstractTask)
    (tr : Trace) : Except Fault (AbstractTask × Executor × Trace) :=
  match e.log .Info "开始执行任务：%s" [t.GetName t.state]
      (tr ++ [Event.call i .GetName]) with
  | .error f => .error f
  | .ok tr1 =>
    let r1 := t.Init opts t.state
    match e.logErr .Error "初始化任务失败: %s" r1.2 (tr1 ++ [Event.call i .Init]) with
    | .error f => .error f
    | .ok tr2 =>
      let r2 := t.Run r1.1
      match e.logErr .Warning "执行任务出错: %s" r2.2 (tr2 ++ [Event.call i .Run]) with
      | .error f => .error f
      | .ok tr3 =>
        let res := t.GetResult r2.1
        match e.MergeResult res.1 res.2 with
        | .error f => .error f
        | .ok e1 =>
          match e1.log .Info "执行结束（耗时：%s秒）" []
              (tr3 ++ [Event.call i .GetResult, Event.mergeResult i]) with
          | .error f => .error f
          | .ok tr4 => .ok ({ t with state := r2.1 }, e1, tr4)

/-- The `for _, t := range e.Tasks` loop of `Execute` over the tasks still to be run, the
first of which sits at position `i`. -/
def Executor.executeLoop (opts : Option Options) :
    Nat → List AbstractTask → Executor → Trace →
      Except Fault (List AbstractTask × Executor × Trace)
  | _, [], e, tr => .ok ([], e, tr)
  | i, t :: rest, e, tr =>
    match e.executeBody opts i t tr with
    | .error f => .error f
    | .ok (t1, e1, tr1) =>
      match Executor.executeLoop opts (i + 1) rest e1 tr1 with
      | .error f => .error f
      | .ok (ts, e2, tr2) => .ok (t1 :: ts, e2, tr2)

/-- What a call of `Execute` leaves behind: the two returned aggregates, the executor
after the call and the trace. -/
structure ExecuteOut where
  Result : GoMap Value
  AbnormalResult : GoSlice AbnormalMsg
  executor : Executor
  trace : Trace

/-- The method `(*Executor).Execute`.  Reading `e.Machine.Name` for the first log line
and calling `e.Machine.Down()` after the loop dereference `e.Machine`, which faults when
the pointer is `nil`; there is no `recover`. -/
def Executor.Execute (e : Executor) (opts : Option Options) (tr : Trace) :
    Except Fault ExecuteOut :=
  match e.Machine with
  | none => .error .nilDereference
  | some m0 =>
    match e.log .Info "开始执行机器名为[%s]的任务，共%v个"
        [m0.Name, toString e.Tasks.length] tr with
    | .error f => .error f
    | .ok tr1 =>
      let e1 : Executor := { e with Result := GoMap.make }
      match Executor.executeLoop opts 0 e1.Tasks e1 tr1 with
      | .error f => .error f
      | .ok (ts, e2, tr2) =>
        match e2.Machine with
        | none => .error .nilDereference
        | some m2 =>
          let d := m2.Down (tr2 ++ [Event.down])
          let e3 : Executor := { e2 with Tasks := ts, Machine := some d.1 }
          match e3.log .Info "机器名为[%s]的任务全部执行结束\n" [d.1.Name] d.2 with
          | .error f => .error f
          | .ok tr3 =>
            .ok { Result := e3.Result, AbnormalResult := e3.AbnormalResult,
                  executor := e3, trace := tr3 }

/-! ## Notions used to state the properties -/

/-- The state of task `t` after `Init opts` and then `Run`, each called once. -/
def AbstractTask.stateAfterRun (t : AbstractTask) (opts : Option Options) : t.State :=
  (t.Run (t.Init opts t.state).1).1

/-- The task `t` once `Init opts` and then `Run` have been called on it. -/
def AbstractTask.ran (t : AbstractTask) (opts : Option Options) : AbstractTask :=
  { t with state := t.stateAfterRun opts }

/-- What `GetResult` returns for task `t` when it is called after `Init opts` and `Run`,
as `Execute` does. -/
def AbstractTask.output (t : AbstractTask) (opts : Option Options) :
    GoMap Value × GoSlice AbnormalMsg :=
  t.GetResult (t.stateAfterRun opts)

/-- The store `d` after every entry of the map `r` has been assigned into it. -/
def assignAll (d : AList (fun _ : String => Value)) (r : GoMap Value) :
    AList (fun _ : String => Value) :=
  r.items.foldl (fun acc kv => acc.insert kv.1 kv.2) d

/-- The calls made by one loop iteration of `Execute` for task `t` at position `i`. -/
def taskEvents (opts : Option Options) (i : Nat) (t : AbstractTask) : List Event :=
  [Event.call i .GetName, Event.log .Info "开始执行任务：%s" [t.GetName t.state],
    Event.call i .Init]
  ++ logIfErr .Error "初始化任务失败: %s" (t.Init opts t.state).2
  ++ [Event.call i .Run]
  ++ logIfErr .Warning "执行任务出错: %s" (t.Run (t.Init opts t.state).1).2
  ++ [Event.call i .GetResult, Event.mergeResult i,
    Event.log .Info "执行结束（耗时：%s秒）" []]

/-- The calls made by the loop of `Execute` over `ts`, whose first task has position `i`. -/
def loopEvents (opts : Option Options) : Nat → List AbstractTask → List Event
  | _, [] => []
  | i, t :: rest => taskEvents opts i t ++ loopEvents opts (i + 1) rest

/-- The calls made by `Machine.Down`. -/
def downEvents (m : Machine) : List Event :=
  match m.Client with
  | some c => [Event.close c]
  | none => []

/-- An `Init` or `Run` call on some task. -/
def Event.isInitOrRun : Event → Bool
  | .call _ .Init => true
  | .call _ .Run => true
  | _ => false

/-- A step taken for some task: a call of one of its methods, or the merge of its
result. -/
def Event.isTaskStep : Event → Bool
  | .call _ _ => true
  | .mergeResult _ => true
  | _ => false

/-! ## Sample data -/

/-- Sample constants for package `common`. -/
def sampleCommon : Common :=
  { JumpServer := "JumpServer", Redis := "Redis", MySQL := "MySQL",
    Critical := "critical", NORMAL := "normal", SLIGHT := "slight" }

/-- A machine of the given role, with connection `client`. -/
def sampleMachine (role : String) (client : Option SshClient) : Machine :=
  { Name := "node-1", Typ := role, Host := "10.0.0.1", Port := "22", Username := "root",
    Password := "secret", Valid := true, Client := client }

/-- A finding with the given description. -/
def sampleFinding (desc : String) : AbnormalMsg :=
  { Level := "critical", Desc := desc, NodeName := "", LevelDisplay := "严重" }

/-- A result-map with the single entry `key ↦ value`. -/
def singletonMap (key : String) (value : Value) : GoMap Value :=
  .mk ((∅ : AList (fun _ : String => Value)).insert key value)

/-- A scripted task: `Init` and `Run` return the given errors, and once `Run` has been
called `GetResult` yields the given result-map and findings (before that, nothing). -/
def scriptedTask (name : String) (initErr runErr : GoError) (result : GoMap Value)
    (findings : GoSlice AbnormalMsg) : AbstractTask :=
  { State := Bool
    state := false
    Init := fun _ s => (s, initErr)
    GetName := fun _ => name
    Run := fun _ => (true, runErr)
    GetResult := fun s => if s then (result, findings) else (.nil, .nil) }

/-- A sample logger. -/
def sampleLogger : Logger := { id := 1 }

/-- An executor for machine `m` with the sample logger attached, as a composite literal
leaves it: no aggregate has been set. -/
def sampleExecutor (m : Machine) (tasks : List AbstractTask) : Executor :=
  { Machine := some m, Tasks := tasks, Result := .nil, AbnormalResult := .nil,
    Logger := some sampleLogger }

/-- An executor whose `Machine` pointer was never set; the logger is attached. -/
def unboundExecutor (tasks : List AbstractTask) : Executor :=
  { Machine := none, Tasks := tasks, Result := .nil, AbnormalResult := .nil,
    Logger := some sampleLogger }

/-- Task A of the samples: `Init` fails, `Run` records `"x" ↦ 1` and two findings. -/
def sampleTaskA : AbstractTask :=
  scriptedTask "A" (some "bad option") none (singletonMap "x" (.int 1))
    (.mk [sampleFinding "f1", sampleFinding "f2"])

/-- Task B of the samples: `Run` fails after recording `"x" ↦ 2` and one finding. -/
def sampleTaskB : AbstractTask :=
  scriptedTask "B" none (some "probe failed") (singletonMap "x" (.int 2))
    (.mk [sampleFinding "f3"])

/-- Task C of the samples: `Init` and `Run` both fail, and `GetResult` yields the `nil`
result-map and the `nil` findings list. -/
def sampleTaskC : AbstractTask :=
  scriptedTask "C" (some "bad option") (some "probe failed") .nil .nil

/-- Sample options: the key `"timeout"` is configured with the empty string, the key
`"mode"` with `"fast"`. -/
def sampleOptions : Options :=
  { JMSConfig := .mk (((∅ : AList (fun _ : String => String)).insert "timeout" "").insert
      "mode" "fast") }

/-- A base task right after construction for the given machine, holding the sample
options. -/
def sampleTask (m : Machine) : Task :=
  { Task.zero with Machine := some m, Options := some sampleOptions }

/-! ## Lemmas on maps and slices -/

theorem GoSlice.toList_append {α : Type} (s : GoSlice α) (xs : List α) :
    (s.append xs).toList = s.toList ++ xs := by
  cases s with
  | nil => cases xs <;> rfl
  | mk l => rfl

theorem GoSlice.isNil_append {α : Type} (s : GoSlice α) (xs : List α) :
    (s.append xs).isNil = (s.isNil && xs.isEmpty) := by
  cases s with
  | nil => cases xs <;> rfl
  | mk l => rfl

theorem GoMap.lookup_mk {β : Type} (s : AList (fun _ : String => β)) (k : String) :
    (GoMap.mk s).lookup k = s.lookup k := rfl

theorem mergeLoop_mk (d : AList (fun _ : String => Value))
    (l : List (Sigma (fun _ : String => Value))) :
    Executor.mergeLoop (.mk d) l
      = .ok (.mk (l.foldl (fun acc kv => acc.insert kv.1 kv.2) d)) := by
  induction l generalizing d with
  | nil => rfl
  | cons kv rest ih => simp [Executor.mergeLoop, GoMap.store, ih]

theorem lookup_foldl_insert (l : List (Sigma (fun _ : String => Value)))
    (hl : l.NodupKeys) (d : AList (fun _ : String => Value)) (k : String) :
    (l.foldl (fun acc kv => acc.insert kv.1 kv.2) d).lookup k
      = (l.dlookup k).or (d.lookup k) := by
  induction l generalizing d with
  | nil => simp
  | cons kv rest ih =>
    obtain ⟨a, b⟩ := kv
    rw [List.nodupKeys_cons] at hl
    rw [List.foldl_cons, ih hl.2]
    by_cases h : k = a
    · subst h
      have : List.dlookup k rest = none := List.dlookup_eq_none.mpr hl.1
      simp [this, List.dlookup_cons_eq]
    · rw [List.dlookup_cons_ne _ _ h, AList.lookup_insert_ne h]

theorem lookup_assignAll (d : AList (fun _ : String => Value)) (r : GoMap Value)
    (k : String) : (assignAll d r).lookup k = (r.lookup k).or (d.lookup k) := by
  cases r with
  | nil => simp [assignAll, GoMap.items, GoMap.lookup]
  | mk s =>
    simp only [assignAll, GoMap.items, GoMap.lookup]
    exact lookup_foldl_insert s.entries s.nodupKeys d k

/-! ## Closed forms of the executor -/

theorem Machine.Down_eq (m : Machine) (tr : Trace) :
    m.Down tr = (m, tr ++ downEvents m) := by
  unfold Machine.Down downEvents
  cases m.Client <;> simp

theorem MergeResult_mk (e : Executor) (d : AList (fun _ : String => Value))
    (h : e.Result = .mk d) (result : GoMap Value) (abnormalResult : GoSlice AbnormalMsg) :
    e.MergeResult result abnormalResult
      = .ok { e with Result := .mk (assignAll d result),
                     AbnormalResult := e.AbnormalResult.append abnormalResult.toList } := by
  simp [Executor.MergeResult, h, mergeLoop_mk, assignAll]

theorem log_some (e : Executor) (lg : Logger) (hl : e.Logger = some lg)
    (level : LogLevel) (format : String) (args : List String) (tr : Trace) :
    e.log level format args tr = .ok (tr ++ [Event.log level format args]) := by
  simp [Executor.log, hl]

theorem logErr_some (e : Executor) (lg : Logger) (hl : e.Logger = some lg)
    (level : LogLevel) (format : String) (err : GoError) (tr : Trace) :
    e.logErr level format err tr = .ok (tr ++ logIfErr level format err) := by
  cases err <;> simp [Executor.logErr, logIfErr, log_some e lg hl]

theorem executeBody_mk (e : Executor) (d : AList (fun _ : String => Value))
    (h : e.Result = .mk d) (lg : Logger) (hl : e.Logger = some lg)
    (opts : Option Options) (i : Nat) (t : AbstractTask) (tr : Trace) :
    e.executeBody opts i t tr
      = .ok (t.ran opts,
          { e with Result := .mk (assignAll d (t.output opts).1),
                   AbnormalResult := e.AbnormalResult.append (t.output opts).2.toList },
          tr ++ taskEvents opts i t) := by
  have hl1 : ∀ (r : GoMap Value) (a : GoSlice AbnormalMsg),
      ({ e with Result := r, AbnormalResult := a } : Executor).Logger = some lg :=
    fun _ _ => hl
  simp [Executor.executeBody, log_some e lg hl, logErr_some e lg hl,
    log_some _ lg (hl1 _ _), MergeResult_mk e d h, AbstractTask.ran,
    AbstractTask.output, AbstractTask.stateAfterRun, taskEvents, List.append_assoc]

theorem executeLoop_mk (opts : Option Options) (lg : Logger) (ts : List AbstractTask) :
    ∀ (i : Nat) (e : Executor) (d : AList (fun _ : String => Value)) (tr : Trace),
      e.Result = .mk d → e.Logger = some lg →
      Executor.executeLoop opts i ts e tr
        = .ok (ts.map (fun t => t.ran opts),
            { e with
              Result := .mk (ts.foldl (fun acc t => assignAll acc (t.output opts).1) d),
              AbnormalResult :=
                ts.foldl (fun acc t => acc.append (t.output opts).2.toList)
                  e.AbnormalResult },
            tr ++ loopEvents opts i ts) := by
  induction ts with
  | nil =>
    intro i e d tr h _
    simp [Executor.executeLoop, loopEvents, ← h]
  | cons t rest ih =>
    intro i e d tr h hl
    rw [Executor.executeLoop, executeBody_mk e d h lg hl]
    simp only []
    rw [ih (i + 1)
      { e with Result := .mk (assignAll d (t.output opts).1),
               AbnormalResult := e.AbnormalResult.append (t.output opts).2.toList }
      (assignAll d (t.output opts).1) _ rfl hl]
    simp [loopEvents, List.append_assoc]

/-- What `Execute` returns on an executor whose machine and logger are set. -/
theorem Execute_eq (e : Executor) (m : Machine) (lg : Logger) (hm : e.Machine = some m)
    (hl : e.Logger = some lg) (opts : Option Options) (tr : Trace) :
    e.Execute opts tr
      = .ok
        { Result := .mk (e.Tasks.foldl (fun acc t => assignAll acc (t.output opts).1) ∅)
          AbnormalResult :=
            e.Tasks.foldl (fun acc t => acc.append (t.output opts).2.toList)
              e.AbnormalResult
          executor :=
            { Machine := some m
              Tasks := e.Tasks.map (fun t => t.ran opts)
              Result :=
                .mk (e.Tasks.foldl (fun acc t => assignAll acc (t.output opts).1) ∅)
              AbnormalResult :=
                e.Tasks.foldl (fun acc t => acc.append (t.output opts).2.toList)
                  e.AbnormalResult
              Logger := some lg }
          trace :=
            tr ++ [Event.log .Info "开始执行机器名为[%s]的任务，共%v个"
                [m.Name, toString e.Tasks.length]]
              ++ loopEvents opts 0 e.Tasks ++ [Event.down] ++ downEvents m
              ++ [Event.log .Info "机器名为[%s]的任务全部执行结束\n" [m.Name]] } := by
  obtain ⟨mach, ts, res, abn, lgr⟩ := e
  simp only at hm hl
  subst hm hl
  simp only [Executor.Execute, Executor.log]
  rw [executeLoop_mk opts lg ts 0 _ ∅ _ rfl rfl]
  simp [Machine.Down_eq, List.append_assoc]

/-! ## Lemmas on the trace and the aggregates -/

theorem logIfErr_filter_initOrRun (level : LogLevel) (format : String) (err : GoError) :
    (logIfErr level format err).filter Event.isInitOrRun = [] := by
  cases err <;> simp [logIfErr, Event.isInitOrRun]

theorem taskEvents_filter_initOrRun (opts : Option Options) (i : Nat) (t : AbstractTask) :
    (taskEvents opts i t).filter Event.isInitOrRun
      = [Event.call i .Init, Event.call i .Run] := by
  simp [taskEvents, List.filter_append, logIfErr_filter_initOrRun, Event.isInitOrRun]

theorem loopEvents_filter_initOrRun (opts : Option Options) (ts : List AbstractTask) :
    ∀ i : Nat, (loopEvents opts i ts).filter Event.isInitOrRun
      = (List.range' i ts.length).flatMap
          (fun j => [Event.call j .Init, Event.call j .Run]) := by
  induction ts with
  | nil => intro i; simp [loopEvents]
  | cons t rest ih =>
    intro i
    simp [loopEvents, List.filter_append, taskEvents_filter_initOrRun, ih, List.range'_succ]

theorem down_not_mem_logIfErr (level : LogLevel) (format : String) (err : GoError) :
    Event.down ∉ logIfErr level format err := by
  cases err <;> simp [logIfErr]

theorem down_not_mem_taskEvents (opts : Option Options) (i : Nat) (t : AbstractTask) :
    Event.down ∉ taskEvents opts i t := by
  simp [taskEvents, down_not_mem_logIfErr]

theorem down_not_mem_loopEvents (opts : Option Options) (ts : List AbstractTask) :
    ∀ i : Nat, Event.down ∉ loopEvents opts i ts := by
  induction ts with
  | nil => intro i; simp [loopEvents]
  | cons t rest ih =>
    intro i
    simp [loopEvents, down_not_mem_taskEvents, ih]

theorem down_not_mem_downEvents (m : Machine) : Event.down ∉ downEvents m := by
  unfold downEvents
  cases m.Client <;> simp

theorem downEvents_not_taskStep (m : Machine) :
    ∀ ev ∈ downEvents m, ev.isTaskStep = false := by
  unfold downEvents
  cases m.Client <;> simp [Event.isTaskStep]

theorem steps_mem_taskEvents (opts : Option Options) (i : Nat) (t : AbstractTask) :
    Event.call i .Init ∈ taskEvents opts i t ∧ Event.call i .Run ∈ taskEvents opts i t
      ∧ Event.mergeResult i ∈ taskEvents opts i t := by
  simp [taskEvents]

theorem steps_mem_loopEvents (opts : Option Options) (ts : List AbstractTask) :
    ∀ (i j : Nat), j < ts.length →
      Event.call (i + j) .Init ∈ loopEvents opts i ts
        ∧ Event.call (i + j) .Run ∈ loopEvents opts i ts
        ∧ Event.mergeResult (i + j) ∈ loopEvents opts i ts := by
  induction ts with
  | nil => intro i j h; simp at h
  | cons t rest ih =>
    intro i j h
    cases j with
    | zero =>
      obtain ⟨h1, h2, h3⟩ := steps_mem_taskEvents opts i t
      simp only [loopEvents, List.mem_append, Nat.add_zero]
      exact ⟨Or.inl h1, Or.inl h2, Or.inl h3⟩
    | succ j =>
      have hj : j < rest.length := by simpa using h
      obtain ⟨h1, h2, h3⟩ := ih (i + 1) j hj
      have hij : i + (j + 1) = i + 1 + j := by omega
      simp only [loopEvents, List.mem_append, hij]
      exact ⟨Or.inr h1, Or.inr h2, Or.inr h3⟩

theorem lookup_foldl_assignAll (opts : Option Options) (ts : List AbstractTask) :
    ∀ (d : AList (fun _ : String => Value)) (k : String),
      (ts.foldl (fun acc t => assignAll acc (t.output opts).1) d).lookup k
        = (ts.reverse.findSome? (fun t => (t.output opts).1.lookup k)).or (d.lookup k) := by
  induction ts with
  | nil => intro d k; simp
  | cons t rest ih =>
    intro d k
    have hone : List.findSome? (fun u => (u.output opts).1.lookup k) [t]
        = (t.output opts).1.lookup k := by
      cases h : (t.output opts).1.lookup k <;> simp [List.findSome?, h]
    rw [List.foldl_cons, ih, lookup_assignAll, List.reverse_cons, List.findSome?_append,
      hone]
    cases List.findSome? (fun t => (t.output opts).1.lookup k) rest.reverse <;>
      cases (t.output opts).1.lookup k <;> simp

theorem toList_foldl_append (opts : Option Options) (ts : List AbstractTask) :
    ∀ s : GoSlice AbnormalMsg,
      (ts.foldl (fun acc t => acc.append (t.output opts).2.toList) s).toList
        = s.toList ++ ts.flatMap (fun t => (t.output opts).2.toList) := by
  induction ts with
  | nil => intro s; simp
  | cons t rest ih =>
    intro s
    rw [List.foldl_cons, ih, GoSlice.toList_append]
    simp [List.append_assoc]

theorem isNil_foldl_append (opts : Option Options) (ts : List AbstractTask) :
    ∀ s : GoSlice AbnormalMsg,
      (ts.foldl (fun acc t => acc.append (t.output opts).2.toList) s).isNil = true
        ↔ s.isNil = true ∧ ∀ t ∈ ts, (t.output opts).2.toList = [] := by
  induction ts with
  | nil => intro s; simp
  | cons t rest ih =>
    intro s
    rw [List.foldl_cons, ih, GoSlice.isNil_append]
    simp [and_assoc]

theorem downEvents_filter_initOrRun (m : Machine) :
    (downEvents m).filter Event.isInitOrRun = [] := by
  unfold downEvents
  cases m.Client <;> simp [Event.isInitOrRun]

theorem findSome_reverse_eq_some_iff {α : Type*} {β : Type*} (f : α → Option β) (l : List α) (b : β) :
    l.reverse.findSome? f = some b
      ↔ ∃ pre a post, l = pre ++ a :: post ∧ f a = some b ∧ ∀ x ∈ post, f x = none := by
  rw [List.findSome?_eq_some_iff]
  constructor
  · rintro ⟨l₁, a, l₂, h, ha, hn⟩
    refine ⟨l₂.reverse, a, l₁.reverse, ?_, ha, ?_⟩
    · have := congrArg List.reverse h
      simpa using this
    · intro x hx
      exact hn x (List.mem_reverse.mp hx)
  · rintro ⟨pre, a, post, h, ha, hn⟩
    refine ⟨post.reverse, a, pre.reverse, ?_, ha, ?_⟩
    · subst h
      simp
    · intro x hx
      exact hn x (List.mem_reverse.mp hx)

/-! ## The executor: tolerance of task failures, merging and cleanup -/

/-- C1: on an executor whose machine and logger are set, for every task list and every
behaviour of the tasks (whichever of them return an error from `Init` and/or `Run`),
`Execute` completes, and the `Init` and `Run` calls it makes are exactly `Init` then `Run` on task 0, `Init` then `Run` on task 1, and so on for
every task of the list in list order, each called once; every task ends in the state
reached by one `Init` followed by one `Run`. -/
theorem C1_execute_runs_every_task (e : Executor) (m : Machine) (lg : Logger)
    (hm : e.Machine = some m) (hl : e.Logger = some lg)
    (opts : Option Options) (tr : Trace) :
    ∃ out evs, e.Execute opts tr = .ok out ∧ out.trace = tr ++ evs
      ∧ evs.filter Event.isInitOrRun
          = (List.range e.Tasks.length).flatMap
              (fun i => [Event.call i .Init, Event.call i .Run])
      ∧ out.executor.Tasks = e.Tasks.map (fun t => t.ran opts) := by
  refine ⟨_, [Event.log .Info "开始执行机器名为[%s]的任务，共%v个"
      [m.Name, toString e.Tasks.length]]
    ++ loopEvents opts 0 e.Tasks ++ [Event.down] ++ downEvents m
    ++ [Event.log .Info "机器名为[%s]的任务全部执行结束\n" [m.Name]],
    Execute_eq e m lg hm hl opts tr, ?_, ?_, rfl⟩
  · simp [List.append_assoc]
  · simp [List.filter_append, loopEvents_filter_initOrRun, downEvents_filter_initOrRun,
      Event.isInitOrRun, List.range_eq_range']

/-- C1 on the sample run: task A fails `Init`, task B fails `Run`, task C fails both, and
the calls are `Init`, `Run` on each of the three in turn. -/
theorem C1_execute_runs_every_task_witness :
    ∃ out evs,
      (sampleExecutor (sampleMachine "Redis" none)
          [sampleTaskA, sampleTaskB, sampleTaskC]).Execute none [] = .ok out
      ∧ out.trace = [] ++ evs
      ∧ evs.filter Event.isInitOrRun
          = [Event.call 0 .Init, Event.call 0 .Run, Event.call 1 .Init, Event.call 1 .Run,
             Event.call 2 .Init, Event.call 2 .Run]
      ∧ out.executor.Tasks
          = [sampleTaskA, sampleTaskB, sampleTaskC].map (fun t => t.ran none) :=
  C1_execute_runs_every_task
    (sampleExecutor (sampleMachine "Redis" none) [sampleTaskA, sampleTaskB, sampleTaskC])
    (sampleMachine "Redis" none) sampleLogger rfl rfl none []

/-- C2: on an executor whose machine and logger are set, for every task list and every
key `k`, the result-map returned by `Execute` maps
`k` to `v` exactly when the last task (in list order) whose result-map contains `k` maps
it to `v`, and `k` is absent from the aggregate exactly when no task's result-map
contains `k`. -/
theorem C2_result_last_write_wins (e : Executor) (m : Machine) (lg : Logger)
    (hm : e.Machine = some m) (hl : e.Logger = some lg)
    (opts : Option Options) (tr : Trace) :
    ∃ out, e.Execute opts tr = .ok out
      ∧ (∀ k v, out.Result.lookup k = some v
          ↔ ∃ pre t post, e.Tasks = pre ++ t :: post
              ∧ (t.output opts).1.lookup k = some v
              ∧ ∀ u ∈ post, (u.output opts).1.lookup k = none)
      ∧ (∀ k, out.Result.lookup k = none
          ↔ ∀ t ∈ e.Tasks, (t.output opts).1.lookup k = none) := by
  refine ⟨_, Execute_eq e m lg hm hl opts tr, ?_, ?_⟩
  · intro k v
    rw [GoMap.lookup_mk, lookup_foldl_assignAll, AList.lookup_empty, Option.or_none]
    exact findSome_reverse_eq_some_iff _ _ _
  · intro k
    rw [GoMap.lookup_mk, lookup_foldl_assignAll, AList.lookup_empty, Option.or_none,
      List.findSome?_eq_none_iff]
    simp

/-- C2 on the sample run: task A yields `"x" ↦ 1`, the later task B yields `"x" ↦ 2`, and
the aggregate has `"x" ↦ 2`. -/
theorem C2_result_last_write_wins_witness :
    ∃ out, (sampleExecutor (sampleMachine "Redis" none) [sampleTaskA, sampleTaskB]).Execute
        none [] = .ok out
      ∧ out.Result.lookup "x" = some (.int 2) := by
  obtain ⟨out, hout, hkey, _⟩ := C2_result_last_write_wins
    (sampleExecutor (sampleMachine "Redis" none) [sampleTaskA, sampleTaskB])
    (sampleMachine "Redis" none) sampleLogger rfl rfl none []
  exact ⟨out, hout,
    (hkey "x" (.int 2)).mpr ⟨[sampleTaskA], sampleTaskB, [], rfl, by decide, by simp⟩⟩

/-- The sample run for C2: task A yields `"x" ↦ 1`, the later task B yields `"x" ↦ 2`,
and the aggregate has `"x" ↦ 2`; a key no task produced is absent. -/
theorem sample_last_write_wins :
    ((sampleExecutor (sampleMachine "Redis" none) [sampleTaskA, sampleTaskB]).Execute
        none []).toOption.map (fun out => (out.Result.lookup "x", out.Result.lookup "y"))
      = some (some (.int 2), none) := by
  decide

/-- C3: for every task list run by `Execute` on an executor that holds no findings yet
(its machine and logger set), the returned findings list is the concatenation, in task-list order, of the findings
lists the tasks return from `GetResult`, each in its own order. -/
theorem C3_findings_concatenated (e : Executor) (m : Machine) (lg : Logger)
    (hm : e.Machine = some m) (hl : e.Logger = some lg)
    (opts : Option Options) (tr : Trace) (hnew : e.AbnormalResult = .nil) :
    ∃ out, e.Execute opts tr = .ok out
      ∧ out.AbnormalResult.toList
          = e.Tasks.flatMap (fun t => (t.output opts).2.toList) := by
  refine ⟨_, Execute_eq e m lg hm hl opts tr, ?_⟩
  simp only []
  rw [toList_foldl_append, hnew]
  rfl

/-- C3, on the sample run: task A yields `[f1, f2]`, task B yields `[f3]`, and the
aggregate is `[f1, f2, f3]`. -/
theorem C3_findings_concatenated_witness :
    ∃ out, (sampleExecutor (sampleMachine "Redis" none) [sampleTaskA, sampleTaskB]).Execute
        none [] = .ok out
      ∧ out.AbnormalResult.toList
          = [sampleFinding "f1", sampleFinding "f2", sampleFinding "f3"] :=
  C3_findings_concatenated
    (sampleExecutor (sampleMachine "Redis" none) [sampleTaskA, sampleTaskB])
    (sampleMachine "Redis" none) sampleLogger rfl rfl none [] rfl

/-- C4: on an executor whose machine and logger are set, for every task list, whatever
its tasks return, the calls made by one `Execute` contain `Machine.Down` exactly once; every task's `Init`, `Run` and result merge come
before it, and nothing done for a task comes after it. -/
theorem C4_down_once_after_tasks (e : Executor) (m : Machine) (lg : Logger)
    (hm : e.Machine = some m) (hl : e.Logger = some lg)
    (opts : Option Options) (tr : Trace) :
    ∃ out before after, e.Execute opts tr = .ok out
      ∧ out.trace = tr ++ before ++ [Event.down] ++ after
      ∧ Event.down ∉ before ∧ Event.down ∉ after
      ∧ (∀ ev ∈ after, ev.isTaskStep = false)
      ∧ (∀ i, i < e.Tasks.length →
          Event.call i .Init ∈ before ∧ Event.call i .Run ∈ before
            ∧ Event.mergeResult i ∈ before) := by
  refine ⟨_, [Event.log .Info "开始执行机器名为[%s]的任务，共%v个"
      [m.Name, toString e.Tasks.length]] ++ loopEvents opts 0 e.Tasks,
    downEvents m
      ++ [Event.log .Info "机器名为[%s]的任务全部执行结束\n" [m.Name]],
    Execute_eq e m lg hm hl opts tr, ?_, ?_, ?_, ?_, ?_⟩
  · simp [List.append_assoc]
  · simp [down_not_mem_loopEvents]
  · simp [down_not_mem_downEvents]
  · intro ev hev
    rcases List.mem_append.mp hev with h | h
    · exact downEvents_not_taskStep m ev h
    · simp only [List.mem_singleton] at h
      subst h
      rfl
  · intro i hi
    have h := steps_mem_loopEvents opts e.Tasks 0 i hi
    simp only [Nat.zero_add] at h
    simp only [List.mem_append]
    exact ⟨Or.inr h.1, Or.inr h.2.1, Or.inr h.2.2⟩

/-- C4 on the sample run, connected through client 7. -/
theorem C4_down_once_after_tasks_witness :
    ∃ out before after,
      (sampleExecutor (sampleMachine "Redis" (some ⟨7⟩))
          [sampleTaskA, sampleTaskB]).Execute none [] = .ok out
      ∧ out.trace = [] ++ before ++ [Event.down] ++ after
      ∧ Event.down ∉ before ∧ Event.down ∉ after
      ∧ (∀ ev ∈ after, ev.isTaskStep = false)
      ∧ (∀ i, i < 2 →
          Event.call i .Init ∈ before ∧ Event.call i .Run ∈ before
            ∧ Event.mergeResult i ∈ before) :=
  C4_down_once_after_tasks
    (sampleExecutor (sampleMachine "Redis" (some ⟨7⟩)) [sampleTaskA, sampleTaskB])
    (sampleMachine "Redis" (some ⟨7⟩)) sampleLogger rfl rfl none []

/-- C7, as stated, fails: a fresh executor with an empty task list returns the `nil`
findings list. -/
theorem C7_findings_nil_counterexample :
    ((sampleExecutor (sampleMachine "" none) []).Execute none []).toOption.map
        (fun out => (out.Result.isNil, out.AbnormalResult.isNil))
      = some (false, true) := by
  decide

/-- C7, amended: for every task list run by `Execute` on a fresh executor (its findings
list still `nil`, its machine and logger set), the returned result-map is never `nil`, and the returned findings list
is `nil` exactly when no task returned a finding. -/
theorem C7_aggregates_nil_status (e : Executor) (m : Machine) (lg : Logger)
    (hm : e.Machine = some m) (hl : e.Logger = some lg)
    (opts : Option Options) (tr : Trace) (hnew : e.AbnormalResult = .nil) :
    ∃ out, e.Execute opts tr = .ok out
      ∧ out.Result.isNil = false
      ∧ (out.AbnormalResult.isNil = true
          ↔ ∀ t ∈ e.Tasks, (t.output opts).2.toList = []) := by
  refine ⟨_, Execute_eq e m lg hm hl opts tr, rfl, ?_⟩
  simp only []
  rw [isNil_foldl_append, hnew]
  simp [GoSlice.isNil]

/-- C7, amended, on the sample run: tasks A and B return findings, so the aggregate
findings list is not `nil`. -/
theorem C7_aggregates_nil_status_witness :
    ∃ out, (sampleExecutor (sampleMachine "Redis" none) [sampleTaskA, sampleTaskB]).Execute
        none [] = .ok out
      ∧ out.Result.isNil = false
      ∧ (out.AbnormalResult.isNil = true
          ↔ ∀ t ∈ [sampleTaskA, sampleTaskB], (t.output none).2.toList = []) :=
  C7_aggregates_nil_status
    (sampleExecutor (sampleMachine "Redis" none) [sampleTaskA, sampleTaskB])
    (sampleMachine "Redis" none) sampleLogger rfl rfl none [] rfl

/-! ## The machine: connection close and task selection -/

/-- C5: a machine whose `Type` is the jump-server constant gets exactly two tasks, the
baseline `OsInfoTask` first and the `ServiceTask` second, both bound to the machine. -/
theorem C5_jumpserver_tasks (c : Common) (m : Machine) (hrole : m.Typ = c.JumpServer) :
    m.GetTasks c = [⟨.OsInfoTask, some m⟩, ⟨.ServiceTask, some m⟩] := by
  simp [Machine.GetTasks, hrole]

/-- C5 on a sample jump-server machine. -/
theorem C5_jumpserver_tasks_witness :
    (sampleMachine "JumpServer" none).GetTasks sampleCommon
      = [⟨.OsInfoTask, some (sampleMachine "JumpServer" none)⟩,
         ⟨.ServiceTask, some (sampleMachine "JumpServer" none)⟩] :=
  C5_jumpserver_tasks sampleCommon (sampleMachine "JumpServer" none) rfl

/-- C6: a machine whose `Type` is none of the three role constants gets exactly one
task, the baseline `OsInfoTask`; `GetTasks` has no error result. -/
theorem C6_unrecognised_role_tasks (c : Common) (m : Machine)
    (hj : m.Typ ≠ c.JumpServer) (hr : m.Typ ≠ c.Redis) (hs : m.Typ ≠ c.MySQL) :
    m.GetTasks c = [⟨.OsInfoTask, some m⟩] := by
  simp [Machine.GetTasks, hj, hr, hs]

/-- C6 on a sample machine whose `Type` is the empty string. -/
theorem C6_unrecognised_role_tasks_witness :
    (sampleMachine "" none).GetTasks sampleCommon
      = [⟨.OsInfoTask, some (sampleMachine "" none)⟩] :=
  C6_unrecognised_role_tasks sampleCommon (sampleMachine "" none)
    (by decide) (by decide) (by decide)

/-- C8, as stated, fails: two calls of `Down` on a machine with an established client
invoke the client's close operation twice. -/
theorem C8_double_close_counterexample :
    (Machine.Down (Machine.Down (sampleMachine "Redis" (some ⟨7⟩)) []).1
        (Machine.Down (sampleMachine "Redis" (some ⟨7⟩)) []).2).2
      = [Event.close ⟨7⟩, Event.close ⟨7⟩] := by
  decide

/-- C8, amended: on a machine with an established client, each call of `Down` invokes
the client's close operation once, so two calls in a row invoke it twice; neither call
changes any field of the machine, so the machine after two calls equals the machine
after one. -/
theorem C8_down_twice (m : Machine) (client : SshClient) (tr : Trace)
    (hc : m.Client = some client) :
    m.Down tr = (m, tr ++ [Event.close client])
      ∧ (m.Down tr).1.Down (m.Down tr).2
          = (m, tr ++ [Event.close client, Event.close client])
      ∧ ((m.Down tr).1.Down (m.Down tr).2).1 = (m.Down tr).1 := by
  simp [Machine.Down, hc]

/-- C8, amended, on a sample machine with client 7. -/
theorem C8_down_twice_witness :
    (sampleMachine "Redis" (some ⟨7⟩)).Down []
        = (sampleMachine "Redis" (some ⟨7⟩), [] ++ [Event.close ⟨7⟩])
      ∧ ((sampleMachine "Redis" (some ⟨7⟩)).Down []).1.Down
          ((sampleMachine "Redis" (some ⟨7⟩)).Down []).2
          = (sampleMachine "Redis" (some ⟨7⟩), [] ++ [Event.close ⟨7⟩, Event.close ⟨7⟩])
      ∧ (((sampleMachine "Redis" (some ⟨7⟩)).Down []).1.Down
          ((sampleMachine "Redis" (some ⟨7⟩)).Down []).2).1
          = ((sampleMachine "Redis" (some ⟨7⟩)).Down []).1 :=
  C8_down_twice (sampleMachine "Redis" (some ⟨7⟩)) ⟨7⟩ [] rfl

/-- C9: on a machine whose `Client` is `nil`, `Down` invokes no close operation (the
trace is unchanged), cannot fault, and leaves every field of the machine unchanged. -/
theorem C9_down_never_opened (m : Machine) (tr : Trace) (hc : m.Client = none) :
    m.Down tr = (m, tr) := by
  simp [Machine.Down, hc]

/-- C9 on a sample machine that never connected. -/
theorem C9_down_never_opened_witness :
    (sampleMachine "Redis" none).Down [Event.down]
      = (sampleMachine "Redis" none, [Event.down]) :=
  C9_down_never_opened (sampleMachine "Redis" none) [Event.down] rfl

/-- C10: with the three role constants pairwise distinct, for every machine the task list
starts with the baseline `OsInfoTask` and continues with at most one task, which is not
an `OsInfoTask`; for the key-value-store constant the list is exactly
`[OsInfoTask, RedisTask]`, for the relational-store constant exactly
`[OsInfoTask, MySQLTask]`. -/
theorem C10_role_specific_tasks (c : Common) (m : Machine)
    (hjr : c.JumpServer ≠ c.Redis) (hjs : c.JumpServer ≠ c.MySQL)
    (hrs : c.Redis ≠ c.MySQL) :
    (∃ rest, m.GetTasks c = ⟨.OsInfoTask, some m⟩ :: rest ∧ rest.length ≤ 1
        ∧ ∀ t ∈ rest, t.variant ≠ .OsInfoTask)
      ∧ (m.Typ = c.Redis → m.GetTasks c = [⟨.OsInfoTask, some m⟩, ⟨.RedisTask, none⟩])
      ∧ (m.Typ = c.MySQL → m.GetTasks c = [⟨.OsInfoTask, some m⟩, ⟨.MySQLTask, none⟩]) := by
  refine ⟨?_, ?_, ?_⟩
  · unfold Machine.GetTasks
    split_ifs <;> simp
  · intro h
    simp [Machine.GetTasks, h, Ne.symm hjr]
  · intro h
    simp [Machine.GetTasks, h, Ne.symm hjs, Ne.symm hrs]

/-- C10 on a sample key-value-store machine: the list is `[OsInfoTask, RedisTask]`. -/
theorem C10_role_specific_tasks_witness :
    (sampleMachine "Redis" none).GetTasks sampleCommon
      = [⟨.OsInfoTask, some (sampleMachine "Redis" none)⟩, ⟨.RedisTask, none⟩] :=
  (C10_role_specific_tasks sampleCommon (sampleMachine "Redis" none)
    (by decide) (by decide) (by decide)).2.1 rfl

/-! ## The base task: configuration lookup and findings -/

/-- C11: for every task whose `Options` carry the configuration map `o.JMSConfig`, every
key and every default `d`, `GetConfig key d` returns the stored value when the key is
present (whatever that value is, the empty string included) and returns `d` when the key
is absent; so the result is `d` only when the key is absent or `d` is itself the stored
value. -/
theorem C11_getconfig_lookup (t : Task) (o : Options) (key d : String)
    (ho : t.Options = some o) :
    (∀ v, o.JMSConfig.lookup key = some v → t.GetConfig key d = .ok v)
      ∧ (o.JMSConfig.lookup key = none → t.GetConfig key d = .ok d)
      ∧ (t.GetConfig key d = .ok d
          ↔ o.JMSConfig.lookup key = none ∨ o.JMSConfig.lookup key = some d) := by
  refine ⟨?_, ?_, ?_⟩
  · intro v hv
    simp [Task.GetConfig, ho, hv]
  · intro hv
    simp [Task.GetConfig, ho, hv]
  · cases hv : o.JMSConfig.lookup key with
    | none => simp [Task.GetConfig, ho, hv]
    | some v =>
      simp only [Task.GetConfig, ho, hv, Except.ok.injEq, Option.some.injEq, false_or,
        reduceCtorEq]

/-- C11 on the sample task: `"timeout"` is stored as the empty string, and that empty
string, not the default, is returned. -/
theorem C11_getconfig_lookup_witness :
    (sampleTask (sampleMachine "Redis" none)).GetConfig "timeout" "30" = .ok "" :=
  (C11_getconfig_lookup (sampleTask (sampleMachine "Redis" none)) sampleOptions
    "timeout" "30" rfl).1 "" (by decide)

/-- The finding list after `SetAbnormalEvent`: the previous findings followed by the one
new finding. -/
theorem SetAbnormalEvent_findings (c : Common) (t : Task) (desc level : String) :
    (t.SetAbnormalEvent c desc level).abnormalResult.toList
      = t.abnormalResult.toList
          ++ [{ Level := level, Desc := desc, NodeName := "",
                LevelDisplay := ((displayMap c).lookup level).getD "" }] := by
  simp [Task.SetAbnormalEvent, GoSlice.toList_append]

/-- C12: with the three severity constants pairwise distinct, the finding appended by
`SetAbnormalEvent desc level` has `Level = level`, `Desc = desc` and the label of its
severity: "严重" for `Critical`, "一般" for `NORMAL`, "轻微" for `SLIGHT`. -/
theorem C12_severity_labels (c : Common) (t : Task) (desc : String)
    (hcn : c.Critical ≠ c.NORMAL) (hcs : c.Critical ≠ c.SLIGHT)
    (hns : c.NORMAL ≠ c.SLIGHT) :
    (t.SetAbnormalEvent c desc c.Critical).abnormalResult.toList
        = t.abnormalResult.toList
            ++ [{ Level := c.Critical, Desc := desc, NodeName := "",
                  LevelDisplay := "严重" }]
      ∧ (t.SetAbnormalEvent c desc c.NORMAL).abnormalResult.toList
        = t.abnormalResult.toList
            ++ [{ Level := c.NORMAL, Desc := desc, NodeName := "",
                  LevelDisplay := "一般" }]
      ∧ (t.SetAbnormalEvent c desc c.SLIGHT).abnormalResult.toList
        = t.abnormalResult.toList
            ++ [{ Level := c.SLIGHT, Desc := desc, NodeName := "",
                  LevelDisplay := "轻微" }] := by
  refine ⟨?_, ?_, ?_⟩
  · rw [SetAbnormalEvent_findings]
    simp only [displayMap, AList.lookup_insert_ne hcs, AList.lookup_insert_ne hcn,
      AList.lookup_insert, Option.getD_some]
  · rw [SetAbnormalEvent_findings]
    simp only [displayMap, AList.lookup_insert_ne hns, AList.lookup_insert,
      Option.getD_some]
  · rw [SetAbnormalEvent_findings]
    simp only [displayMap, AList.lookup_insert, Option.getD_some]

/-- C12 on the sample constants: a critical finding on a fresh task is labelled "严重". -/
theorem C12_severity_labels_witness :
    ((sampleTask (sampleMachine "Redis" none)).SetAbnormalEvent sampleCommon
        "disk full" sampleCommon.Critical).abnormalResult.toList
      = (sampleTask (sampleMachine "Redis" none)).abnormalResult.toList
          ++ [{ Level := sampleCommon.Critical, Desc := "disk full", NodeName := "",
                LevelDisplay := "严重" }] :=
  (C12_severity_labels sampleCommon (sampleTask (sampleMachine "Redis" none)) "disk full"
    (by decide) (by decide) (by decide)).1

/-- C15: for every newly constructed base task (no result-map, no findings) and every
`Options` value, `Init` returns no error and stores the given `Options`; before and after
`Init`, `GetResult` returns a result-map without entries and a findings list without
elements. -/
theorem C15_init_empty_results (t : Task) (opts : Option Options)
    (hres : t.result = .nil) (habn : t.abnormalResult = .nil) :
    (t.Init opts).2 = none
      ∧ (t.Init opts).1.Options = opts
      ∧ (t.Init opts).1.GetResult.1.items = []
      ∧ (t.Init opts).1.GetResult.2.toList = []
      ∧ t.GetResult.1.items = []
      ∧ t.GetResult.2.toList = [] := by
  simp [Task.Init, Task.GetResult, hres, habn, GoMap.make, GoMap.items, GoSlice.toList]

/-- C15 on the zero-valued task and the sample options. -/
theorem C15_init_empty_results_witness :
    (Task.zero.Init (some sampleOptions)).2 = none
      ∧ (Task.zero.Init (some sampleOptions)).1.Options = some sampleOptions
      ∧ (Task.zero.Init (some sampleOptions)).1.GetResult.1.items = []
      ∧ (Task.zero.Init (some sampleOptions)).1.GetResult.2.toList = []
      ∧ Task.zero.GetResult.1.items = []
      ∧ Task.zero.GetResult.2.toList = [] :=
  C15_init_empty_results Task.zero (some sampleOptions) rfl rfl

/-- C16: for every task state and every `(desc, level)`, after `SetAbnormalEvent` the
findings list is the previous list followed by exactly one new finding, so it is one
longer and every earlier finding keeps its position and content; the result-map, the
`Machine`, the `Options` and the `JMSConfig` of the task are unchanged. -/
theorem C16_findings_append_only (c : Common) (t : Task) (desc level : String) :
    (∃ f, (t.SetAbnormalEvent c desc level).abnormalResult.toList
        = t.abnormalResult.toList ++ [f])
      ∧ (t.SetAbnormalEvent c desc level).abnormalResult.toList.length
          = t.abnormalResult.toList.length + 1
      ∧ (∀ i, i < t.abnormalResult.toList.length →
          (t.SetAbnormalEvent c desc level).abnormalResult.toList[i]?
            = t.abnormalResult.toList[i]?)
      ∧ (t.SetAbnormalEvent c desc level).result = t.result
      ∧ (t.SetAbnormalEvent c desc level).Machine = t.Machine
      ∧ (t.SetAbnormalEvent c desc level).Options = t.Options
      ∧ (t.SetAbnormalEvent c desc level).JMSConfig = t.JMSConfig := by
  refine ⟨⟨_, SetAbnormalEvent_findings c t desc level⟩, ?_, ?_, rfl, rfl, rfl, rfl⟩
  · rw [SetAbnormalEvent_findings]
    simp
  · intro i hi
    rw [SetAbnormalEvent_findings, List.getElem?_append_left hi]

/-- C18: `SetAbnormalEvent` accepts any level string and never fills in the node name.
For a level that is none of the three severity constants a finding is still appended,
with `Level = level` and the empty string as `LevelDisplay`; and for every `(desc, level)`
the appended finding has the empty string as `NodeName`, whatever machine the task is
bound to. -/
theorem C18_unknown_level_and_node_name (c : Common) (t : Task) (desc level : String)
    (hc : level ≠ c.Critical) (hn : level ≠ c.NORMAL) (hs : level ≠ c.SLIGHT) :
    (t.SetAbnormalEvent c desc level).abnormalResult.toList
        = t.abnormalResult.toList
            ++ [{ Level := level, Desc := desc, NodeName := "", LevelDisplay := "" }]
      ∧ (∀ (u : Task) (desc2 level2 : String), ∃ f,
          (u.SetAbnormalEvent c desc2 level2).abnormalResult.toList
            = u.abnormalResult.toList ++ [f]
          ∧ f.NodeName = "" ∧ f.Level = level2 ∧ f.Desc = desc2) := by
  refine ⟨?_, ?_⟩
  · rw [SetAbnormalEvent_findings]
    simp only [displayMap, AList.lookup_insert_ne hc, AList.lookup_insert_ne hn,
      AList.lookup_insert_ne hs, AList.lookup_empty, Option.getD_none]
  · intro u desc2 level2
    exact ⟨_, SetAbnormalEvent_findings c u desc2 level2, rfl, rfl, rfl⟩

/-- C18 on the sample task, bound to the machine `node-1`: the level `"fatal"` is not one
of the sample severities, and the finding is appended with empty label and node name. -/
theorem C18_unknown_level_and_node_name_witness :
    ((sampleTask (sampleMachine "Redis" none)).SetAbnormalEvent sampleCommon
        "disk full" "fatal").abnormalResult.toList
      = (sampleTask (sampleMachine "Redis" none)).abnormalResult.toList
          ++ [{ Level := "fatal", Desc := "disk full", NodeName := "",
                LevelDisplay := "" }] :=
  (C18_unknown_level_and_node_name sampleCommon (sampleTask (sampleMachine "Redis" none))
    "disk full" "fatal" (by decide) (by decide) (by decide)).1

/-! ## The executor: absence of faults and repeated runs -/

/-- Outside `Execute`, merging a non-empty result-map into an executor whose `Result` was
never initialised faults: the initialisation at the head of `Execute` is what the merge
relies on. -/
theorem sample_merge_into_nil_map_faults :
    (sampleExecutor (sampleMachine "Redis" none) []).MergeResult
        (singletonMap "x" (.int 1)) .nil
      = .error .nilMapWrite := by
  rfl

/-- C13, as stated, fails: an executor whose `Machine` pointer is `nil` is an executor
state, and `Execute` faults on it when it reads `e.Machine.Name`. -/
theorem C13_nil_machine_counterexample :
    (unboundExecutor [sampleTaskA]).Execute none [] = .error .nilDereference := by
  rfl

/-- C13, amended: for every executor state whose `Machine` and `Logger` pointers are set
(whatever its `Result` map, the never-initialised `nil` map included), every task list
and every behaviour of tasks whose methods return (errors from `Init` or `Run`, a `nil`
result-map or a `nil` findings list from `GetResult`), `Execute` returns without fault;
and once `Result` has been initialised the task loop with its merges completes from every
position, for every task list. -/
theorem C13_execute_completes_when_bound (e : Executor) (m : Machine) (lg : Logger)
    (hm : e.Machine = some m) (hl : e.Logger = some lg)
    (opts : Option Options) (tr : Trace) :
    (∃ out, e.Execute opts tr = .ok out)
      ∧ (∀ (i : Nat) (ts : List AbstractTask) (tr1 : Trace), ∃ r,
          Executor.executeLoop opts i ts { e with Result := GoMap.make } tr1 = .ok r) :=
  ⟨⟨_, Execute_eq e m lg hm hl opts tr⟩,
   fun i ts tr1 =>
    ⟨_, executeLoop_mk opts lg ts i { e with Result := GoMap.make } ∅ tr1 rfl hl⟩⟩

/-- C13, amended, on the sample executor, whose `Result` map is `nil` before the call:
task A fails `Init`, task C fails both calls and yields a `nil` result-map and a `nil`
findings list. -/
theorem C13_execute_completes_when_bound_witness :
    (∃ out, (sampleExecutor (sampleMachine "Redis" none)
        [sampleTaskA, sampleTaskC]).Execute none [] = .ok out)
      ∧ (∀ (i : Nat) (ts : List AbstractTask) (tr1 : Trace), ∃ r,
          Executor.executeLoop none i ts
            { sampleExecutor (sampleMachine "Redis" none) [sampleTaskA, sampleTaskC] with
              Result := GoMap.make } tr1 = .ok r) :=
  C13_execute_completes_when_bound
    (sampleExecutor (sampleMachine "Redis" none) [sampleTaskA, sampleTaskC])
    (sampleMachine "Redis" none) sampleLogger rfl rfl none []

/-- The sample second run for C17: running `Execute` again on the executor left by a
first run keeps the three findings of the first run and appends the three of the second,
while the result-map holds the single key of this run. -/
theorem sample_second_run_keeps_findings :
    (((sampleExecutor (sampleMachine "Redis" none) [sampleTaskA, sampleTaskB]).Execute
        none []).bind (fun out => out.executor.Execute none out.trace)).toOption.map
        (fun out => (out.AbnormalResult.toList.map (fun f => f.Desc),
          out.Result.items.map (fun kv => kv.1)))
      = some (["f1", "f2", "f3", "f1", "f2", "f3"], ["x"]) := by
  decide

/-- C17: for every executor whose machine and logger are set, whatever findings and
result-map it already holds, `Execute` returns the findings it held before followed by the concatenation, in task order, of the
findings of this run's tasks, and every key of the returned result-map is a key of the
result-map of one of this run's tasks. -/
theorem C17_findings_kept_result_reset (e : Executor) (m : Machine) (lg : Logger)
    (hm : e.Machine = some m) (hl : e.Logger = some lg)
    (opts : Option Options) (tr : Trace) :
    ∃ out, e.Execute opts tr = .ok out
      ∧ out.AbnormalResult.toList
          = e.AbnormalResult.toList
              ++ e.Tasks.flatMap (fun t => (t.output opts).2.toList)
      ∧ (∀ k, (out.Result.lookup k).isSome = true →
          ∃ t ∈ e.Tasks, ((t.output opts).1.lookup k).isSome = true) := by
  refine ⟨_, Execute_eq e m lg hm hl opts tr, ?_, ?_⟩
  · exact toList_foldl_append opts e.Tasks e.AbnormalResult
  · intro k hk
    rw [GoMap.lookup_mk, lookup_foldl_assignAll, AList.lookup_empty, Option.or_none,
      List.findSome?_isSome_iff] at hk
    obtain ⟨t, ht, hs⟩ := hk
    exact ⟨t, List.mem_reverse.mp ht, hs⟩

/-- C17 on a sample executor that already holds the finding `f0` and the key `"old"`:
the run of task B returns `[f0, f3]`, and every key of the returned map comes from
task B. -/
theorem C17_findings_kept_result_reset_witness :
    ∃ out,
      ({ sampleExecutor (sampleMachine "Redis" none) [sampleTaskB] with
          Result := singletonMap "old" .null,
          AbnormalResult := .mk [sampleFinding "f0"] } : Executor).Execute none []
        = .ok out
      ∧ out.AbnormalResult.toList = [sampleFinding "f0", sampleFinding "f3"]
      ∧ (∀ k, (out.Result.lookup k).isSome = true →
          ∃ t ∈ [sampleTaskB], ((t.output none).1.lookup k).isSome = true) :=
  C17_findings_kept_result_reset
    { sampleExecutor (sampleMachine "Redis" none) [sampleTaskB] with
      Result := singletonMap "old" .null,
      AbnormalResult := .mk [sampleFinding "f0"] }
    (sampleMachine "Redis" none) sampleLogger rfl rfl none []

/-! ## Task selection: the machine bound to each task -/

/-- C14, as stated, fails: for a key-value-store machine the second task returned by
`GetTasks`, the `RedisTask`, has no machine set. -/
theorem C14_redis_task_unbound_counterexample :
    ((sampleMachine "Redis" none).GetTasks sampleCommon).map (fun t => t.Machine)
      = [some (sampleMachine "Redis" none), none] := by
  decide

/-- C14, amended: for every machine `m` and every role, every `OsInfoTask` and every
`ServiceTask` returned by `m.GetTasks` has `m` as its `Machine`, while the `RedisTask`
and the `MySQLTask` are built with no machine set. -/
theorem C14_task_machine_binding (c : Common) (m : Machine) (t : ConcreteTask)
    (ht : t ∈ m.GetTasks c) :
    (t.variant = .OsInfoTask ∨ t.variant = .ServiceTask → t.Machine = some m)
      ∧ (t.variant = .RedisTask ∨ t.variant = .MySQLTask → t.Machine = none) := by
  unfold Machine.GetTasks at ht
  split_ifs at ht <;> simp at ht <;> rcases ht with rfl | rfl <;> simp

/-- C14, amended, on a sample jump-server machine: its `ServiceTask` is returned by
`GetTasks` and is bound to the machine. -/
theorem C14_task_machine_binding_witness :
    (⟨.ServiceTask, some (sampleMachine "JumpServer" none)⟩ : ConcreteTask)
        ∈ (sampleMachine "JumpServer" none).GetTasks sampleCommon
      ∧ (⟨.ServiceTask, some (sampleMachine "JumpServer" none)⟩ : ConcreteTask).Machine
          = some (sampleMachine "JumpServer" none) :=
  ⟨by decide,
   (C14_task_machine_binding sampleCommon (sampleMachine "JumpServer" none)
    ⟨.ServiceTask, some (sampleMachine "JumpServer" none)⟩ (by decide)).1 (Or.inr rfl)⟩

end Inspect
